import Mathlib

/-!
Verification of the core of the `twofloat` double-double library
(`src/base.rs`): the bit-level non-overlap predicate, pair validity,
scalar equality/ordering, and NaN-tolerant min/max selection.

An `f64` is embedded as its 64-bit IEEE-754 pattern, a `Nat` below `2 ^ 64`.
All field extractions mirror the Rust source: the biased exponent is
`(x.to_bits() >> 52) & 0x7ff`, the stored mantissa is the low 52 bits, and
classification follows `f64::classify`.  Numeric comparison of two non-NaN
patterns is order-isomorphic to the signed magnitude key `fkey` (sign bit
selects the sign of the low 63 bits), which identifies `+0.0` and `-0.0`
and is the standard monotone encoding of IEEE-754 ordering.
-/

namespace TF

/-- Sign bit of an f64 bit pattern. -/
def signBit (x : Nat) : Nat := x / 2 ^ 63 % 2

/-- The 11-bit biased exponent field: `(x.to_bits() >> 52) & 0x7ff`. -/
def expField (x : Nat) : Nat := x / 2 ^ 52 % 2 ^ 11

/-- The 52-bit stored mantissa field: `x.to_bits() & ((1 << 52) - 1)`. -/
def mantField (x : Nat) : Nat := x % 2 ^ 52

/-- `core::num::FpCategory`. -/
inductive FpCategory where
  | Zero
  | Subnormal
  | Normal
  | Infinite
  | Nan
  deriving DecidableEq

/-- `f64::classify` on the bit pattern. -/
def classify (x : Nat) : FpCategory :=
  if expField x = 0 then
    if mantField x = 0 then FpCategory.Zero else FpCategory.Subnormal
  else if expField x = 2047 then
    if mantField x = 0 then FpCategory.Infinite else FpCategory.Nan
  else FpCategory.Normal

/-- `f64::is_finite`: the exponent field is not all ones. -/
def isFinite (x : Nat) : Bool := expField x != 2047

/-- `f64::is_nan`: exponent field all ones and nonzero mantissa. -/
def isNaN (x : Nat) : Bool := expField x == 2047 && mantField x != 0

/-- Binary length of a natural number, fuel-structured so that it reduces
in the kernel (`bitlenAux 64` covers every 64-bit value). -/
def bitlenAux : Nat → Nat → Nat
  | 0, _ => 0
  | fuel + 1, n => if n = 0 then 0 else bitlenAux fuel (n / 2) + 1

/-- `u64::leading_zeros` on a value below `2 ^ 64`. -/
def leadingZeros64 (n : Nat) : Nat := 64 - bitlenAux 64 n

/-- `fn exponent(x: f64) -> u32` from `src/base.rs`. -/
def exponent (x : Nat) : Nat := expField x

/-- `pub fn no_overlap(a: f64, b: f64) -> bool` from `src/base.rs`
(the pure result; the debug print it also performs is modelled by
`no_overlapRun`). -/
def no_overlap (a b : Nat) : Bool :=
  match classify a, classify b with
  | FpCategory.Normal, FpCategory.Normal =>
      decide (exponent b + 53 ≤ exponent a)
  | FpCategory.Normal, FpCategory.Subnormal =>
      let a_exponent := exponent a
      if 53 ≤ a_exponent then
        true
      else
        decide (65 - leadingZeros64 (b % 2 ^ 52) ≤ a_exponent)
  | FpCategory.Normal, FpCategory.Zero => true
  | FpCategory.Subnormal, FpCategory.Zero => true
  | FpCategory.Zero, FpCategory.Zero => true
  | _, _ => false

/-- `no_overlap` together with the text it writes to standard output:
the `Normal, Subnormal` branch executes
`println!("a_exponent = \x7b\x7d", a_exponent)` before deciding. -/
def no_overlapRun (a b : Nat) : Bool × List String :=
  match classify a, classify b with
  | FpCategory.Normal, FpCategory.Normal =>
      (decide (exponent b + 53 ≤ exponent a), [])
  | FpCategory.Normal, FpCategory.Subnormal =>
      let a_exponent := exponent a
      (if 53 ≤ a_exponent then
        true
      else
        decide (65 - leadingZeros64 (b % 2 ^ 52) ≤ a_exponent),
       ["a_exponent = " ++ toString a_exponent])
  | FpCategory.Normal, FpCategory.Zero => (true, [])
  | FpCategory.Subnormal, FpCategory.Zero => (true, [])
  | FpCategory.Zero, FpCategory.Zero => (true, [])
  | _, _ => (false, [])

/-- Signed-magnitude ordering key: non-NaN f64 patterns compare numerically
exactly as their keys compare, with `+0.0` and `-0.0` sharing key `0`. -/
def fkey (x : Nat) : Int :=
  if signBit x = 0 then ((x % 2 ^ 63 : Nat) : Int) else -((x % 2 ^ 63 : Nat) : Int)

/-- `f64::partial_cmp`: `None` when either operand is NaN, otherwise the
numeric comparison. -/
def fcmp (x y : Nat) : Option Ordering :=
  if isNaN x || isNaN y then none else some (compare (fkey x) (fkey y))

/-- `f64` equality (`==`): never true for NaN, identifies the two zeros. -/
def feq (x y : Nat) : Bool := decide (fcmp x y = some Ordering.eq)

/-- `pub struct TwoFloat { hi: f64, lo: f64 }`, components as bit patterns. -/
structure TwoFloat where
  hi : Nat
  lo : Nat
  deriving DecidableEq

/-- The `#[derive(PartialOrd)]` comparison on `TwoFloat`: lexicographic on
`(hi, lo)`; the `lo` comparison is consulted only when the `hi` comparison
is `Some(Equal)`. -/
def tfCmp (a b : TwoFloat) : Option Ordering :=
  match fcmp a.hi b.hi with
  | some Ordering.eq => fcmp a.lo b.lo
  | o => o

/-- `a <= b` on `TwoFloat`, as `PartialOrd::le` derives it. -/
def tfLe (a b : TwoFloat) : Bool :=
  match tfCmp a b with
  | some Ordering.lt => true
  | some Ordering.eq => true
  | _ => false

/-- `a >= b` on `TwoFloat`, as `PartialOrd::ge` derives it. -/
def tfGe (a b : TwoFloat) : Bool :=
  match tfCmp a b with
  | some Ordering.gt => true
  | some Ordering.eq => true
  | _ => false

/-- `impl PartialOrd<f64> for TwoFloat`: compare `hi` with the scalar, and
only on `Some(Equal)` compare `lo` with `0.0`. -/
def tfCmpF64 (t : TwoFloat) (s : Nat) : Option Ordering :=
  let hi_cmp := fcmp t.hi s
  if hi_cmp = some Ordering.eq then fcmp t.lo 0 else hi_cmp

/-- `impl PartialOrd<TwoFloat> for f64`. -/
def f64CmpTf (s : Nat) (t : TwoFloat) : Option Ordering :=
  let hi_cmp := fcmp s t.hi
  if hi_cmp = some Ordering.eq then fcmp 0 t.lo else hi_cmp

/-- `impl PartialEq<f64> for TwoFloat`: `self.hi.eq(other) && self.lo == 0.0`. -/
def tfEqF64 (t : TwoFloat) (s : Nat) : Bool := feq t.hi s && feq t.lo 0

/-- `impl PartialEq<TwoFloat> for f64`: `self.eq(&other.hi) && other.lo == 0.0`. -/
def f64EqTf (s : Nat) (t : TwoFloat) : Bool := feq s t.hi && feq t.lo 0

/-- `TwoFloat::is_valid`. -/
def TwoFloat.is_valid (t : TwoFloat) : Bool :=
  isFinite t.hi && isFinite t.lo && no_overlap t.hi t.lo

/-- `TwoFloat::min` (`Clone::clone` on a `Copy` type is the identity). -/
def TwoFloat.min (self other : TwoFloat) : TwoFloat :=
  if !self.is_valid then other
  else if !other.is_valid || tfLe self other then self
  else other

/-- `TwoFloat::max`. -/
def TwoFloat.max (self other : TwoFloat) : TwoFloat :=
  if !self.is_valid then other
  else if !other.is_valid || tfGe self other then self
  else other

/-- Bit pattern of `f64::NAN`. -/
def nanBits : Nat := 0x7FF8000000000000

/-- Bit pattern of `f64::INFINITY`. -/
def infBits : Nat := 0x7FF0000000000000

/-- `TwoFloat::NAN`, the all-NaN sentinel constant. -/
def TwoFloat.NAN : TwoFloat := ⟨nanBits, nanBits⟩

end TF

namespace TF

/-! ### Helper lemmas -/

lemma expField_le (x : Nat) : expField x ≤ 2047 := by
  have h : x / 2 ^ 52 % 2 ^ 11 < 2 ^ 11 := Nat.mod_lt _ (by norm_num)
  simpa [expField] using Nat.lt_succ_iff.mp (by simpa using h)

lemma mantField_lt (x : Nat) : mantField x < 2 ^ 52 :=
  Nat.mod_lt _ (by norm_num)

lemma classify_subnormal (x : Nat) (h : classify x = FpCategory.Subnormal) :
    expField x = 0 ∧ mantField x ≠ 0 := by
  unfold classify at h
  split_ifs at h
  simp_all

lemma bitlenAux_le_of_lt :
    ∀ fuel k n : Nat, n < 2 ^ k → k ≤ fuel → bitlenAux fuel n ≤ k := by
  intro fuel
  induction fuel with
  | zero => intro k n _ _; simp [bitlenAux]
  | succ f ih =>
    intro k n hn hk
    unfold bitlenAux
    split_ifs with h
    · exact Nat.zero_le k
    · have hk0 : k ≠ 0 := by
        rintro rfl
        exact h (Nat.lt_one_iff.mp (by simpa using hn))
      obtain ⟨k', rfl⟩ := Nat.exists_eq_succ_of_ne_zero hk0
      have hdiv : n / 2 < 2 ^ k' := by
        rw [pow_succ] at hn
        exact (Nat.div_lt_iff_lt_mul (by norm_num)).mpr hn
      have := ih k' (n / 2) hdiv (Nat.succ_le_succ_iff.mp hk)
      omega

lemma one_le_bitlenAux (fuel n : Nat) (hn : n ≠ 0) :
    1 ≤ bitlenAux (fuel + 1) n := by
  unfold bitlenAux
  split_ifs with h
  · exact absurd h hn
  · omega

/-! ### Claim theorems -/

/-- Claim C1: for Normal `a` and Normal `b`, `no_overlap a b` is true exactly
when the biased exponent field of `a` is at least that of `b` plus 53. -/
theorem C1_normal_normal (a b : Nat)
    (ha : classify a = FpCategory.Normal) (hb : classify b = FpCategory.Normal) :
    no_overlap a b = true ↔ exponent b + 53 ≤ exponent a := by
  unfold no_overlap
  rw [ha, hb]
  simp

/-- Claim C1 witness: `2 ^ 53` (exponent field 1076) does not overlap `1.0`
(exponent field 1023). -/
theorem C1_witness : no_overlap (1076 * 2 ^ 52) (1023 * 2 ^ 52) = true :=
  (C1_normal_normal (1076 * 2 ^ 52) (1023 * 2 ^ 52) (by decide) (by decide)).mpr
    (by decide)

/-- Claim C2: for Normal `a` and Subnormal `b`, `no_overlap a b` is true when
the exponent field of `a` is at least 53, and otherwise true exactly when that
field is at least `65` minus the 64-bit leading-zero count of `b`'s stored
mantissa field; concretely `no_overlap (2 ^ -970) (2 ^ -1023) = true`,
`no_overlap (2 ^ -971) (2 ^ -1023) = false` and
`no_overlap (2 ^ -971) (2 ^ -1024) = true`. -/
theorem C2_normal_subnormal (a b : Nat)
    (ha : classify a = FpCategory.Normal) (hb : classify b = FpCategory.Subnormal) :
    ((53 ≤ exponent a → no_overlap a b = true) ∧
     (exponent a < 53 →
       (no_overlap a b = true ↔ 65 - leadingZeros64 (mantField b) ≤ exponent a))) ∧
    no_overlap (53 * 2 ^ 52) (2 ^ 51) = true ∧
    no_overlap (52 * 2 ^ 52) (2 ^ 51) = false ∧
    no_overlap (52 * 2 ^ 52) (2 ^ 50) = true := by
  refine ⟨⟨?_, ?_⟩, by decide, by decide, by decide⟩
  · intro h
    unfold no_overlap
    rw [ha, hb]
    simp [h]
  · intro h
    unfold no_overlap
    rw [ha, hb]
    rw [if_neg (by omega)]
    simp [mantField, decide_eq_true_iff]

/-- Claim C2 witness: `2 ^ -970` (exponent field 53) does not overlap the
subnormal `2 ^ -1023`. -/
theorem C2_witness : no_overlap (53 * 2 ^ 52) (2 ^ 51) = true :=
  ((C2_normal_subnormal (53 * 2 ^ 52) (2 ^ 51) (by decide) (by decide)).1).1
    (by decide)

/-- Claim C3: `is_valid` is the conjunction of finiteness of both components
with `no_overlap`; it is false when either component is non-finite and false
on the `TwoFloat.NAN` sentinel. -/
theorem C3_is_valid (t : TwoFloat) :
    (t.is_valid = true ↔
      isFinite t.hi = true ∧ isFinite t.lo = true ∧ no_overlap t.hi t.lo = true) ∧
    (isFinite t.hi = false → t.is_valid = false) ∧
    (isFinite t.lo = false → t.is_valid = false) ∧
    TwoFloat.NAN.is_valid = false := by
  refine ⟨?_, ?_, ?_, by decide⟩
  · simp [TwoFloat.is_valid, Bool.and_eq_true, and_assoc]
  · intro h
    simp [TwoFloat.is_valid, h]
  · intro h
    simp [TwoFloat.is_valid, h]

/-- Claim C3 witness: a pair with an infinite high word is invalid. -/
theorem C3_witness : TwoFloat.is_valid ⟨infBits, 0⟩ = false :=
  (C3_is_valid ⟨infBits, 0⟩).2.1 (by decide)

/-- Claim C9: when both operands are invalid, `min` and `max` both return the
second operand, because the `self`-invalid branch fires first. -/
theorem C9_both_invalid (a b : TwoFloat)
    (ha : a.is_valid = false) (_hb : b.is_valid = false) :
    a.min b = b ∧ a.max b = b := by
  constructor <;> simp [TwoFloat.min, TwoFloat.max, ha]

/-- Claim C9 witness: `min`/`max` of the NaN sentinel and an
infinite-component pair return the second operand. -/
theorem C9_witness :
    TwoFloat.min TwoFloat.NAN ⟨infBits, 0⟩ = ⟨infBits, 0⟩ ∧
    TwoFloat.max TwoFloat.NAN ⟨infBits, 0⟩ = ⟨infBits, 0⟩ :=
  C9_both_invalid TwoFloat.NAN ⟨infBits, 0⟩ (by decide) (by decide)

/-- Claim C10: the exponent field never exceeds 2047, so `exponent b + 53`
fits a `u32`; and for a Subnormal `b` the 64-bit leading-zero count of its
nonzero stored mantissa lies between 12 and 63, so `65 - leadingZeros64`
never underflows. -/
theorem C10_no_wrap (b : Nat) :
    exponent b ≤ 2047 ∧ exponent b + 53 < 2 ^ 32 ∧
    (classify b = FpCategory.Subnormal →
      12 ≤ leadingZeros64 (mantField b) ∧ leadingZeros64 (mantField b) ≤ 63) := by
  have he : exponent b ≤ 2047 := expField_le b
  refine ⟨he, by omega, ?_⟩
  intro h
  obtain ⟨-, hm⟩ := classify_subnormal b h
  have h1 : bitlenAux 64 (mantField b) ≤ 52 :=
    bitlenAux_le_of_lt 64 52 (mantField b) (mantField_lt b) (by norm_num)
  have h2 : 1 ≤ bitlenAux 64 (mantField b) := one_le_bitlenAux 63 (mantField b) hm
  unfold leadingZeros64
  omega

/-- Claim C10 witness: for the subnormal `2 ^ -1023` the leading-zero count
of the mantissa field is within the stated bounds. -/
theorem C10_witness :
    12 ≤ leadingZeros64 (mantField (2 ^ 51)) ∧
    leadingZeros64 (mantField (2 ^ 51)) ≤ 63 :=
  (C10_no_wrap (2 ^ 51)).2.2 (by decide)

end TF

namespace TF

lemma fcmp_self_nan (x y : Nat) (h : isNaN x = true) : fcmp x y = none := by
  simp [fcmp, h]

lemma fcmp_other_nan (x y : Nat) (h : isNaN y = true) : fcmp x y = none := by
  simp [fcmp, h]

lemma feq_comm (x y : Nat) : feq x y = feq y x := by
  unfold feq fcmp
  rcases hx : isNaN x with _ | _ <;> rcases hy : isNaN y with _ | _
  · show decide (some (compare (fkey x) (fkey y)) = some Ordering.eq) =
      decide (some (compare (fkey y) (fkey x)) = some Ordering.eq)
    rw [decide_eq_decide]
    simp only [Option.some.injEq, compare_eq_iff_eq]
    exact eq_comm
  · rfl
  · rfl
  · rfl

lemma fkey_eq_zero_iff (x : Nat) (hx : x < 2 ^ 64) :
    fkey x = 0 ↔ x = 0 ∨ x = 2 ^ 63 := by
  unfold fkey signBit
  split_ifs with h
  · rw [Int.natCast_eq_zero]
    omega
  · rw [neg_eq_zero, Int.natCast_eq_zero]
    omega

lemma feq_zero_iff (x : Nat) (hx : x < 2 ^ 64) :
    feq x 0 = true ↔ x = 0 ∨ x = 2 ^ 63 := by
  rcases hn : isNaN x with _ | _
  · have hstep : feq x 0 =
        decide (some (compare (fkey x) (fkey 0)) = some Ordering.eq) := by
      unfold feq fcmp
      rw [hn]
      rfl
    rw [hstep]
    have hk0 : fkey 0 = 0 := by decide
    simp only [decide_eq_true_eq, Option.some.injEq, compare_eq_iff_eq, hk0]
    exact fkey_eq_zero_iff x hx
  · have hfalse : feq x 0 = false := by
      unfold feq fcmp
      rw [hn]
      rfl
    rw [hfalse]
    constructor
    · intro h
      exact absurd h (by decide)
    · rintro (rfl | rfl)
      · exact absurd hn (by decide)
      · exact absurd hn (by decide)

/-- Claim C4: `min`/`max` return the other operand when `self` is invalid,
`self` when only the other is invalid, and otherwise select by the
lexicographic non-strict relations `<=` (for `min`) and `>=` (for `max`),
preferring `self` on ties. -/
theorem C4_min_max (a b : TwoFloat) :
    (a.is_valid = false → a.min b = b ∧ a.max b = b) ∧
    (a.is_valid = true → b.is_valid = false → a.min b = a ∧ a.max b = a) ∧
    (a.is_valid = true → b.is_valid = true →
      (tfLe a b = true → a.min b = a) ∧ (tfLe a b = false → a.min b = b) ∧
      (tfGe a b = true → a.max b = a) ∧ (tfGe a b = false → a.max b = b)) := by
  refine ⟨fun ha => ?_, fun ha hb => ?_, fun ha hb => ?_⟩
  · constructor <;> simp [TwoFloat.min, TwoFloat.max, ha]
  · constructor <;> simp [TwoFloat.min, TwoFloat.max, ha, hb]
  · refine ⟨fun hle => ?_, fun hle => ?_, fun hge => ?_, fun hge => ?_⟩
    · simp [TwoFloat.min, ha, hb, hle]
    · simp [TwoFloat.min, ha, hb, hle]
    · simp [TwoFloat.max, ha, hb, hge]
    · simp [TwoFloat.max, ha, hb, hge]

/-- Claim C4 witness: the invalid NaN sentinel loses to a valid pair in both
`min` and `max`. -/
theorem C4_witness :
    TwoFloat.min TwoFloat.NAN ⟨1023 * 2 ^ 52, 0⟩ = ⟨1023 * 2 ^ 52, 0⟩ :=
  ((C4_min_max TwoFloat.NAN ⟨1023 * 2 ^ 52, 0⟩).1 (by decide)).1

/-- Claim C5: comparison of a pair with a scalar, in either direction,
coincides with the derived lexicographic comparison against the pair
`(scalar, 0.0)`, and is `none` whenever the high-word comparison involves
a NaN. -/
theorem C5_scalar_cmp (t : TwoFloat) (s : Nat) :
    tfCmpF64 t s = tfCmp t ⟨s, 0⟩ ∧
    f64CmpTf s t = tfCmp ⟨s, 0⟩ t ∧
    (isNaN t.hi = true ∨ isNaN s = true →
      tfCmpF64 t s = none ∧ f64CmpTf s t = none) := by
  refine ⟨?_, ?_, ?_⟩
  · unfold tfCmpF64 tfCmp
    rcases h : fcmp t.hi s with _ | o
    · simp [h]
    · cases o <;> simp [h]
  · unfold f64CmpTf tfCmp
    rcases h : fcmp s t.hi with _ | o
    · simp [h]
    · cases o <;> simp [h]
  · intro h
    have hhi : fcmp t.hi s = none ∧ fcmp s t.hi = none := by
      rcases h with h | h
      · exact ⟨fcmp_self_nan _ _ h, fcmp_other_nan _ _ h⟩
      · exact ⟨fcmp_other_nan _ _ h, fcmp_self_nan _ _ h⟩
    constructor
    · unfold tfCmpF64
      simp [hhi.1]
    · unfold f64CmpTf
      simp [hhi.2]

/-- Claim C5 witness: comparing the NaN sentinel with the scalar `0.0` is
unordered in both directions. -/
theorem C5_witness :
    tfCmpF64 TwoFloat.NAN 0 = none ∧ f64CmpTf 0 TwoFloat.NAN = none :=
  (C5_scalar_cmp TwoFloat.NAN 0).2.2 (Or.inl (by decide))

/-- Claim C6: a pair equals a scalar exactly when its high word equals the
scalar under floating-point equality and its low word is numerically zero
(`+0.0` or `-0.0`); the scalar-on-the-left comparison agrees; concretely
`(5.0, 0.0)` equals `5.0` and `(5.0, 1e-300)` does not. -/
theorem C6_scalar_eq (t : TwoFloat) (s : Nat) (hlo : t.lo < 2 ^ 64) :
    (tfEqF64 t s = true ↔ feq t.hi s = true ∧ (t.lo = 0 ∨ t.lo = 2 ^ 63)) ∧
    f64EqTf s t = tfEqF64 t s ∧
    tfEqF64 ⟨0x4014000000000000, 0⟩ 0x4014000000000000 = true ∧
    tfEqF64 ⟨0x4014000000000000, 0x01A56E1FC2F8F359⟩ 0x4014000000000000 = false := by
  refine ⟨?_, ?_, by decide, by decide⟩
  · unfold tfEqF64
    rw [Bool.and_eq_true, feq_zero_iff t.lo hlo]
  · unfold f64EqTf tfEqF64
    rw [feq_comm s t.hi]

/-- Claim C6 witness: the pair `(5.0, 0.0)` equals the scalar `5.0`. -/
theorem C6_witness : tfEqF64 ⟨0x4014000000000000, 0⟩ 0x4014000000000000 = true :=
  ((C6_scalar_eq ⟨0x4014000000000000, 0⟩ 0x4014000000000000 (by norm_num)).1).mpr
    ⟨by decide, Or.inl rfl⟩

/-- Claim C7: `no_overlap x z` is true for either sign of zero in the second
slot whenever `x` is Zero, Subnormal or Normal; it is false whenever the
first operand is Infinite or NaN; and every category combination outside the
decision table yields false. -/
theorem C7_zero_and_default (x y : Nat) :
    (classify x = FpCategory.Zero ∨ classify x = FpCategory.Subnormal ∨
        classify x = FpCategory.Normal →
      no_overlap x 0 = true ∧ no_overlap x (2 ^ 63) = true) ∧
    (classify x = FpCategory.Infinite ∨ classify x = FpCategory.Nan →
      no_overlap x y = false) ∧
    (¬ ((classify x = FpCategory.Normal ∧
          (classify y = FpCategory.Normal ∨ classify y = FpCategory.Subnormal ∨
            classify y = FpCategory.Zero)) ∨
        (classify x = FpCategory.Subnormal ∧ classify y = FpCategory.Zero) ∨
        (classify x = FpCategory.Zero ∧ classify y = FpCategory.Zero)) →
      no_overlap x y = false) := by
  have h0 : classify 0 = FpCategory.Zero := by decide
  have hm0 : classify (2 ^ 63) = FpCategory.Zero := by decide
  refine ⟨?_, ?_, ?_⟩
  · intro h
    refine ⟨?_, ?_⟩
    · unfold no_overlap
      rw [h0]
      rcases h with h | h | h <;> rw [h]
    · unfold no_overlap
      rw [hm0]
      rcases h with h | h | h <;> rw [h]
  · intro h
    unfold no_overlap
    rcases h with h | h <;> rw [h]
  · intro h
    unfold no_overlap
    rcases hx : classify x <;> rcases hy : classify y <;>
      first
        | rfl
        | (exfalso; apply h; rw [hx, hy]; tauto)

/-- Claim C7 witness: the subnormal `2 ^ -1023` does not overlap `+0.0`,
does not overlap `-0.0`, and the out-of-table pair (Zero, Normal) is
rejected. -/
theorem C7_witness :
    no_overlap (2 ^ 51) 0 = true ∧ no_overlap (2 ^ 51) (2 ^ 63) = true :=
  (C7_zero_and_default (2 ^ 51) 0).1 (Or.inr (Or.inl (by decide)))

/-- Claim C8: contrary to the purity claim, the `Normal, Subnormal` branch
of `no_overlap` writes a debug line to standard output; at
`a = 2 ^ -971`, `b = 2 ^ -1023` the emitted output is nonempty. -/
theorem C8_println_output :
    (no_overlapRun (52 * 2 ^ 52) (2 ^ 51)).2 = ["a_exponent = 52"] ∧
    (no_overlapRun (52 * 2 ^ 52) (2 ^ 51)).2 ≠ [] ∧
    (no_overlapRun (52 * 2 ^ 52) (2 ^ 51)).1 = no_overlap (52 * 2 ^ 52) (2 ^ 51) := by
  refine ⟨by decide, by decide, by decide⟩

end TF
